import Mathlib

/-!
Verification development for the `ecpac` repository (a job-script generator
for running C-PAC on an HPC cluster through Slurm).

The Python sources are shallowly embedded as executable Lean definitions:

* `src/ecpac/main.py`   — resource policy, job expansion, plan assembly
  (`resolveResources`, `expandIdx`, `mainPlan`, ...);
* `src/ecpac/utils.py`  — `timedelta_to_hms`, `bridges_gb_to_mb`;
* `src/ecpac/consts.py` — `CPAC_PRECONFIGS`, `BASH_TEMPLATE_JOB` (note that in
  the Python triple-quoted literal every backslash-newline pair is a line
  continuation, so the singularity invocation is a single line of the string);
* `src/ecpac/bash_builder.py` — `job_template` and its `shlex.join`-based
  container invocation;
* `src/ecpac/fsplan.py` — `FsPlan.apply`.

Python `float` values that only feed arithmetic and comparisons are modelled
as rationals (`ℚ`); Python `int` as `ℤ`; file-system paths as plain strings
(assumed absolute and normalised, since `Path.absolute()` depends only on the
process working directory, which is outside the embedded core).
-/

/-- The single-quote character, `'`. -/
def qChar : Char := Char.ofNat 39

/-- The double-quote character, `"`. -/
def dqChar : Char := Char.ofNat 34

/-- The newline character. -/
def nlChar : Char := Char.ofNat 10

/-! ## Resource policy (`main.py`, lines 396-417) -/

/-- The per-job resources resolved by `main.py` lines 401-417: the scheduler
("job") side and the container ("cpac") side, plus whether the memory-bound
warning was printed (`click.secho(..., fg="yellow")`, lines 406-410). -/
structure ResolvedResources where
  job_threads : ℤ
  cpac_threads : ℤ
  job_memory_gb : ℚ
  cpac_memory_gb : ℚ
  warn : Bool
deriving DecidableEq

/-- Embeds `main.py` lines 401-417.  Python's `math.ceil` on a float is
`Int.ceil` on the rational model; `max` over mixed int/float operands agrees
with `max` on `ℚ`/`ℤ` (only the printed type of the result differs). -/
def resolveResources (threads : ℤ) (memory_gb : ℚ) : ResolvedResources :=
  if 2 * (threads : ℚ) < memory_gb then
    { job_threads := max ⌈memory_gb / 2⌉ 2
      cpac_threads := max (threads - 1) 1
      job_memory_gb := memory_gb
      cpac_memory_gb := max (memory_gb - 1) 1
      warn := true }
  else
    { job_threads := threads
      cpac_threads := max (threads - 1) 1
      job_memory_gb := memory_gb
      cpac_memory_gb := max (memory_gb - 1) 1
      warn := false }

/-- Embeds `utils.bridges_gb_to_mb` (`utils.py` lines 47-49):
`return gb * 1000`.  No rounding is performed by the source. -/
def bridges_gb_to_mb (gb : ℚ) : ℚ := gb * 1000

/-! ## `utils.timedelta_to_hms` (`utils.py` lines 26-29)

`f"{s // 3600:02.0f}:{s % 3600 // 60:02.0f}:{s % 60:02.0f}"` where `s` is the
total number of seconds.  The `:.0f` float format rounds to the nearest
integer with ties going to the even integer; `:02` zero-pads to a minimum
width of two characters.  Python float `//` is `Int.floor` of the quotient and
`%` (for a positive modulus) is `x - m * ⌊x / m⌋`. -/

/-- Round to the nearest integer, ties to even — the rounding used by
Python's fixed-point float formatting. -/
def roundHalfEven (x : ℚ) : ℤ :=
  if x - ⌊x⌋ < 1 / 2 then ⌊x⌋
  else if 1 / 2 < x - ⌊x⌋ then ⌊x⌋ + 1
  else if Even ⌊x⌋ then ⌊x⌋ else ⌊x⌋ + 1

/-- Python float floor division `x // m`, as a rational. -/
def qfdiv (x m : ℚ) : ℚ := (⌊x / m⌋ : ℤ)

/-- Python float modulus `x % m` (positive modulus case). -/
def qmod (x m : ℚ) : ℚ := x - m * ⌊x / m⌋

/-- Zero-pad the decimal representation of an integer to a minimum width of
two characters. -/
def zfill2 (k : ℤ) : String :=
  if 0 ≤ k ∧ k < 10 then "0" ++ toString k else toString k

/-- Python's `f"{x:02.0f}"`: round half-to-even, then zero-pad the decimal
representation to a minimum width of two characters. -/
def pyFmt02f (x : ℚ) : String := zfill2 (roundHalfEven x)

/-- Embeds `utils.timedelta_to_hms`, taking the timedelta as its total number
of seconds. -/
def timedelta_to_hms (s : ℚ) : String :=
  pyFmt02f (qfdiv s 3600) ++ ":" ++ pyFmt02f (qfdiv (qmod s 3600) 60) ++ ":" ++ pyFmt02f (qmod s 60)

/-! ## Pipeline tokens and job expansion (`main.py`, `consts.py`) -/

/-- `consts.CPAC_PRECONFIGS` (`consts.py` lines 16-33). -/
def CPAC_PRECONFIGS : List String :=
  ["abcd-options", "abcd-prep", "anat-only", "benchmark-FNIRT", "blank",
   "ccs-options", "default", "default-deprecated", "fmriprep-options",
   "fx-options", "monkey", "ndmg", "nhp-macaque", "preproc", "rbc-options",
   "rodent"]

/-- Python's `f"{idx:03d}"`: zero-pad the decimal representation to a minimum
width of three characters. -/
def pad3 (n : ℕ) : String :=
  if n < 10 then "00" ++ toString n
  else if n < 100 then "0" ++ toString n
  else toString n

/-- Split a character list at every occurrence of the separator (the
separator is dropped; `splitOnChar c []` is `[[]]`, like Python `split`). -/
def splitOnChar (sep : Char) : List Char → List (List Char)
  | [] => [[]]
  | c :: rest =>
    if c = sep then [] :: splitOnChar sep rest
    else
      match splitOnChar sep rest with
      | [] => [[c]]
      | h :: t => (c :: h) :: t

/-- `pathlib.PurePath.name` for ordinary POSIX paths: the last nonempty
`/`-separated component.  (The pathlib special cases `"."` and `".."` are not
modelled; the program never derives a stem from them.) -/
def pathNameL (cs : List Char) : List Char :=
  (((splitOnChar '/' cs).filter (fun l => l ≠ [])).getLastD [])

/-- Drop the final `.`-suffix: keep the characters strictly before the last
dot. -/
def dropLastExt (l : List Char) : List Char :=
  ((l.reverse.dropWhile (fun c => c ≠ '.')).drop 1).reverse

/-- `pathlib.PurePath.stem`: the `name` without its last suffix; a dot in the
leading position does not start a suffix. -/
def stemOfL : List Char → List Char
  | [] => []
  | c :: rest => if '.' ∈ rest then c :: dropLastExt rest else c :: rest

/-- `pathlib.Path(p).stem` on the string model. -/
def pathStem (s : String) : String := String.mk (stemOfL (pathNameL s.toList))

/-- The output-directory segment for one expanded job
(`main.py` line 357): the preset name itself when presets are used, otherwise
`f"{idx:03d}_{Path(pipe).stem}"`. -/
def pipeId (usePre : Bool) (idx : ℕ) (pipe : String) : String :=
  if usePre then pipe else pad3 idx ++ "_" ++ pathStem pipe

/-- `itertools.product(pipeline_ids, subjects)` in the order Python yields
it: outer loop over pipelines, inner loop over subjects. -/
def expandPairs (pipes subs : List String) : List (String × String) :=
  pipes.flatMap (fun p => subs.map (fun s => (p, s)))

/-- `enumerate(itertools.product(pipeline_ids, subjects))`
(`main.py` line 356). -/
def expandIdx (pipes subs : List String) : List (ℕ × String × String) :=
  (expandPairs pipes subs).enum

/-! ## `shlex.quote` / `shlex.join` (Python standard library, used by
`bash_builder.py` line 107 and `main.py` line 475)

`shlex.quote(s)` returns `"''"` for the empty string, `s` unchanged when
every character is in the ASCII safe set (alphanumerics, underscore, and
`@ % + = : , . - ` and the forward slash), and
otherwise wraps `s` in single quotes after replacing every `'` with the
five-character sequence `'"'"'`.  `shlex.join` quotes each argument and joins
them with single spaces. -/

/-- Characters `shlex._find_unsafe` accepts without quoting. -/
def safeChar (c : Char) : Bool :=
  c.isAlphanum || c = '_' || c = '@' || c = '%' || c = '+' || c = '=' ||
    c = ':' || c = ',' || c = '.' || c = '/' || c = '-'

/-- `s.replace("'", "'\"'\"'")` at the character level. -/
def escQuoteL : List Char → List Char
  | [] => []
  | c :: t =>
    if c = qChar then qChar :: dqChar :: qChar :: dqChar :: qChar :: escQuoteL t
    else c :: escQuoteL t

/-- `shlex.quote` at the character level. -/
def shlexQuoteL (s : List Char) : List Char :=
  if s = [] then [qChar, qChar]
  else if s.all safeChar then s
  else qChar :: (escQuoteL s ++ [qChar])

/-- `shlex.quote`. -/
def shlexQuote (s : String) : String := String.mk (shlexQuoteL s.toList)

/-- Python `sep.join(parts)`: the parts concatenated with `sep` between
consecutive parts. -/
def strJoin (sep : String) : List String → String
  | [] => ""
  | [x] => x
  | x :: y :: t => x ++ sep ++ strJoin sep (y :: t)

/-- `shlex.join`: quote every argument, join with single spaces. -/
def shlexJoin (args : List String) : String := strJoin " " (args.map shlexQuote)

/-! ## A small POSIX shell reader for quoted words

Used to state what "appears as a single correctly quoted shell argument"
means.  `parseW` reads one word made of literal characters, single-quoted
segments and double-quoted segments, returning the text the shell would see.
(Backslash escapes are not modelled: `shlex.quote` never emits backslashes,
and inside the double-quoted segments it emits the only character is `'`.) -/

/-- Quoting state of the reader: outside quotes, inside single quotes, or
inside double quotes. -/
inductive PMode
  | norm
  | sq
  | dq
deriving DecidableEq

/-- Read one shell word: strip quoting, keep the quoted text. -/
def parseW : PMode → List Char → List Char
  | _, [] => []
  | PMode.norm, c :: s =>
    if c = qChar then parseW PMode.sq s
    else if c = dqChar then parseW PMode.dq s
    else c :: parseW PMode.norm s
  | PMode.sq, c :: s =>
    if c = qChar then parseW PMode.norm s else c :: parseW PMode.sq s
  | PMode.dq, c :: s =>
    if c = dqChar then parseW PMode.norm s else c :: parseW PMode.dq s

/-- Read one shell word from a string. -/
def parseWord (s : String) : String := String.mk (parseW PMode.norm s.toList)

/-- Split a command line into shell words: unquoted spaces separate words,
quotes group and are stripped.  `started` records whether the current word
has begun (so `''` still yields an empty word). -/
def shellWordsL : PMode → Bool → List Char → List Char → List (List Char)
  | PMode.norm, started, cur, [] => if started then [cur] else []
  | PMode.norm, started, cur, c :: s =>
    if c = ' ' then
      if started then cur :: shellWordsL PMode.norm false [] s
      else shellWordsL PMode.norm false [] s
    else if c = qChar then shellWordsL PMode.sq true cur s
    else if c = dqChar then shellWordsL PMode.dq true cur s
    else shellWordsL PMode.norm true (cur ++ [c]) s
  | PMode.sq, _, cur, [] => [cur]
  | PMode.sq, _, cur, c :: s =>
    if c = qChar then shellWordsL PMode.norm true cur s
    else shellWordsL PMode.sq true (cur ++ [c]) s
  | PMode.dq, _, cur, [] => [cur]
  | PMode.dq, _, cur, c :: s =>
    if c = dqChar then shellWordsL PMode.norm true cur s
    else shellWordsL PMode.dq true (cur ++ [c]) s

/-- Split a command line (a single physical line, spaces as separators) into
the words the shell would pass to the program. -/
def shellWords (s : String) : List String :=
  (shellWordsL PMode.norm false [] s.toList).map String.mk

/-! ## The `main.py` job-script renderer (`consts.BASH_TEMPLATE_JOB`,
`consts.py` lines 36-72, filled by `str.format` at `main.py` lines 419-442)

In the Python triple-quoted literal every `\`-newline pair is a line
continuation and disappears from the string, so the singularity invocation
of `BASH_TEMPLATE_JOB` is one single line, and `BASH_TEMPLATE_JOB_CPAC_BIN`
is a single line ending in a space.  `str.format` substitutes the fields
verbatim, with no quoting or escaping of any kind. -/

/-- The field values `main.py` lines 419-442 substitute into the template,
already converted to strings the way `str.format` renders them. -/
structure MainJobFields where
  job_name : String
  stdout_file : String
  cpac_bin_opt : String
  wd : String
  subject : String
  pipeline : String
  path_input : String
  path_output : String
  image : String
  duration_str : String
  threads : String
  memory_mb : String
  cpac_threads : String
  cpac_memory_gb : String
  extra_cpac_args : String
  analysis_level : String
deriving DecidableEq

/-- `consts.BASH_TEMPLATE_JOB_CPAC_BIN` with `{cpac_bin}` substituted
(one line, trailing space, after line-continuation removal). -/
def bashTemplateJobCpacBin (cpac_bin : String) : String :=
  "-B " ++ cpac_bin ++ "/CPAC:/code/CPAC -B " ++ cpac_bin ++
    "/dev/docker_data/run.py:/code/run.py -B " ++ cpac_bin ++
    "/dev/docker_data:/cpac_resources "

/-- `consts.BASH_TEMPLATE_PIPELINE_PRECONFIG` /
`consts.BASH_TEMPLATE_PIPELINE_CONFIG_FILE` with `{pipeline}` substituted
(`main.py` lines 427-429). -/
def pipelineOptStr (usePre : Bool) (pipe : String) : String :=
  (if usePre then "--preconfig " else "--pipeline-file ") ++ pipe

/-- The single (logical and physical) singularity line of
`BASH_TEMPLATE_JOB` with all fields substituted raw. -/
def mainSingularityLine (f : MainJobFields) : String :=
  "singularity run --cleanenv " ++ f.cpac_bin_opt ++ " -B " ++ f.path_input ++
    ":" ++ f.path_input ++ ":ro -B " ++ f.path_output ++ ":" ++ f.path_output ++
    " " ++ f.image ++ " " ++ f.path_input ++ " " ++ f.path_output ++ " " ++
    f.analysis_level ++ " --skip_bids_validator --n_cpus " ++ f.cpac_threads ++
    " --mem_gb " ++ f.cpac_memory_gb ++ " --participant_label " ++ f.subject ++
    " " ++ f.pipeline ++ " " ++ f.extra_cpac_args

/-- `BASH_TEMPLATE_JOB.format(...)`: the full rendered job script of
`main.py`. -/
def bashTemplateJob (f : MainJobFields) : String :=
  "#!/usr/bin/bash\n#SBATCH --job-name " ++ f.job_name ++
    "\n#SBATCH --output " ++ f.stdout_file ++
    "\n#SBATCH --nodes 1\n#SBATCH --partition RM-shared\n#SBATCH --time " ++
    f.duration_str ++ "\n#SBATCH --ntasks-per-node " ++ f.threads ++
    "\n#SBATCH --mem " ++ f.memory_mb ++ "\n\nset -x\n\ncd " ++ f.wd ++
    "\n\n" ++ mainSingularityLine f ++ "\n"

/-! ## The `bash_builder.py` renderer (`job_template`, lines 34-135)

Python float-to-string rendering (`str(v)` on a `float`) is not modelled;
the renderer is parametrised by `fstr : ℚ → String` standing for it.  No
claim depends on the digits it produces. -/

/-- The keyword arguments of `bash_builder.job_template`. -/
structure JobTemplateArgs where
  job_name : String
  job_stdout_file : String
  job_duration_limit : ℚ
  job_threads : ℤ
  job_memory_gb : ℚ
  wd : String
  path_input : String
  path_output : String
  cpac_threads : ℤ
  cpac_memory_gb : ℚ
  path_image : String
  analysis_level : String
  subject : String
  pipeline : String
  pipeline_is_preconfig : Bool
  cpac_sources : Option String
  extra_cpac_args : Option String
  before_run : List String
  after_run : List String

/-- The `cpac_call` argument list built by `job_template`
(`bash_builder.py` lines 60-105).  `if cpac_sources:` is Python truthiness:
`None` and the empty string are falsy. -/
def cpacCall (fstr : ℚ → String) (a : JobTemplateArgs) : List String :=
  ["singularity", "run", "--cleanenv"] ++
    (match a.cpac_sources with
     | some c =>
       if c = "" then []
       else ["-B", c ++ "/CPAC:/code/CPAC",
             "-B", c ++ "/dev/docker_data/run.py:/code/run.py",
             "-B", c ++ "/dev/docker_data:/cpac_resources"]
     | none => []) ++
    ["-B", a.path_input ++ ":" ++ a.path_input ++ ":ro",
     "-B", a.path_output ++ ":" ++ a.path_output] ++
    [a.path_image, a.path_input, a.path_output, a.analysis_level,
     "--skip_bids_validator", "--n_cpus", toString a.cpac_threads,
     "--mem_gb", fstr a.cpac_memory_gb, "--participant_label", a.subject] ++
    [if a.pipeline_is_preconfig then "--preconfig" else "--pipeline-file",
     a.pipeline]

/-- `cpac_call_str` (`bash_builder.py` lines 107-110): the shlex-joined
argument list, with the free-form extra arguments appended raw when
nonempty. -/
def cpacCallStr (fstr : ℚ → String) (a : JobTemplateArgs) : String :=
  match a.extra_cpac_args with
  | some e =>
    if e = "" then shlexJoin (cpacCall fstr a)
    else shlexJoin (cpacCall fstr a) ++ " " ++ e
  | none => shlexJoin (cpacCall fstr a)

/-- `_sbatch_header(...)` at the call site of `job_template`
(`bash_builder.py` lines 26-31 and 114-122): one `#SBATCH --<key> <value>`
line per keyword, underscores replaced by hyphens, in call order. -/
def sbatchHeaderLines (fstr : ℚ → String) (a : JobTemplateArgs) : List String :=
  ["#SBATCH --job-name " ++ a.job_name,
   "#SBATCH --output " ++ a.job_stdout_file,
   "#SBATCH --nodes 1",
   "#SBATCH --partition RM-shared",
   "#SBATCH --time " ++ timedelta_to_hms a.job_duration_limit,
   "#SBATCH --ntasks-per-node " ++ toString a.job_threads,
   "#SBATCH --mem " ++ fstr (bridges_gb_to_mb a.job_memory_gb)]

/-- `_buf_pad_after_if_not_empty` (`bash_builder.py` lines 19-23). -/
def bufPadAfterIfNotEmpty (buf : List String) (after : String) : List String :=
  if buf.length > 0 then buf ++ [after] else buf

/-- `_buf_pad_before_if_not_empty` (`bash_builder.py` lines 12-16). -/
def bufPadBeforeIfNotEmpty (buf : List String) (before : String) : List String :=
  if buf.length > 0 then before :: buf else buf

/-- The line buffer of `job_template` (`bash_builder.py` lines 112-132). -/
def jobTemplateLines (fstr : ℚ → String) (a : JobTemplateArgs) : List String :=
  ["#!/usr/bin/bash"] ++ sbatchHeaderLines fstr a ++
    ["", "set -x", "", shlexJoin ["cd", a.wd] ++ " || exit", ""] ++
    bufPadAfterIfNotEmpty a.before_run "" ++
    [cpacCallStr fstr a] ++
    bufPadBeforeIfNotEmpty a.after_run "" ++ [""]

/-- `bash_builder.job_template`: the joined script text. -/
def job_template (fstr : ℚ → String) (a : JobTemplateArgs) : String :=
  strJoin "\n" (jobTemplateLines fstr a)

/-! ## The filesystem plan (`fsplan.py` lines 8-28 and its duplicate in
`main.py` lines 17-36; both classes have identical `apply` bodies) -/

/-- One planned file-system change. -/
structure FsPlan where
  path : String
  is_file : Bool := false
  contents_text : Option String := none
  make_executable : Bool := false
deriving DecidableEq

/-- The sort key of `main.py` line 484:
`i.path.absolute().as_posix()`.  Paths are modelled as already absolute,
normalised POSIX strings, so the key is the path itself. -/
def planKey (p : FsPlan) : String := p.path

/-- `sorted(fs_plans, key=...)` (`main.py` line 484): Python string `<` is
lexicographic by code point, as is Lean's `String` order. -/
def sortPlans (l : List FsPlan) : List FsPlan :=
  l.mergeSort (fun a b => decide (planKey a ≤ planKey b))

/-- A file-system state: a set of directories, a map of file contents, and
the set of paths that have had the execute bit added (all represented as
lists; duplicates are irrelevant). -/
structure Fs where
  dirs : List String
  files : List (String × String)
  execs : List String
deriving DecidableEq

/-- The proper ancestors of a path, by `/`-separated components.  (For an
absolute path the component list starts with an empty component, so the list
starts with the artefact `""` standing for the root.) -/
def ancestors (p : String) : List String :=
  ((List.range ((splitOnChar '/' p.toList).map String.mk).length).drop 1).map
    (fun k => strJoin "/" (((splitOnChar '/' p.toList).map String.mk).take k))

/-- `Path(p).mkdir(parents=True, exist_ok=True)`: the path and all its
ancestors become directories; nothing else changes. -/
def mkdirP (p : String) (dirs : List String) : List String :=
  p :: (ancestors p ++ dirs)

/-- `Path(p).parent`. -/
def parentDir (p : String) : String :=
  strJoin "/" (((splitOnChar '/' p.toList).map String.mk).dropLast)

/-- Overwrite semantics of `open(path, "w")` + `write`. -/
def setFile (p txt : String) (files : List (String × String)) :
    List (String × String) :=
  (p, txt) :: files.filter (fun kv => kv.1 ≠ p)

/-- `FsPlan.apply` (`fsplan.py` lines 17-28, identical to `main.py` lines
26-36): a file entry creates the parent directories, writes the contents
(`""` when `contents_text` is `None`) and, only if `make_executable`, adds
the execute bit; a directory entry only creates the directory and its
missing parents. -/
def FsPlan.applyFs (e : FsPlan) (fs : Fs) : Fs :=
  if e.is_file then
    let fs1 : Fs := { fs with dirs := mkdirP (parentDir e.path) fs.dirs }
    let fs2 : Fs := { fs1 with
      files := setFile e.path (e.contents_text.getD "") fs1.files }
    if e.make_executable then { fs2 with execs := e.path :: fs2.execs }
    else fs2
  else
    { fs with dirs := mkdirP e.path fs.dirs }

/-- Apply every entry in order (`main.py` lines 498-499). -/
def applyAll (plans : List FsPlan) (fs : Fs) : Fs :=
  plans.foldl (fun s e => FsPlan.applyFs e s) fs

/-! ## Orchestration (`main.py` lines 329-499)

The validated parameters that reach the planning phase, gathered into one
record.  `duration_s` is `res_duration` in seconds; `fstr : ℚ → String`
again stands for Python float-to-string rendering. -/

/-- The validated configuration of one `ecpac` invocation. -/
structure MainConfig where
  run_id : String
  path_input : String
  path_output : String
  path_image : String
  subjects : List String
  pipeline_ids : List String
  use_preconfigs : Bool
  analysis_level : String
  patch_cpac : Option String
  memory_gb : ℚ
  threads : ℤ
  duration_s : ℚ
  save_working_dir : Bool
  extra_cpac_args : String

/-- `path_out` for one expanded job (`main.py` line 359). -/
def pathOutOf (cfg : MainConfig) (i : ℕ) (pipe sub : String) : String :=
  cfg.path_output ++ "/" ++ cfg.run_id ++ "/" ++
    pipeId cfg.use_preconfigs i pipe ++ "/" ++ sub

/-- `extra_args` for one job (`main.py` lines 365-367). -/
def mainExtraArgs (cfg : MainConfig) (pathOut : String) : List String :=
  [cfg.extra_cpac_args] ++
    (if cfg.save_working_dir then ["--save_working_dir " ++ pathOut ++ "/wd"]
     else [])

/-- The template fields for one job (`main.py` lines 419-442).  The slack
hook strings computed at lines 369-394 are also passed to `str.format`, but
the template has no matching placeholders, so they never reach the output
and are omitted here. -/
def mainJobFields (fstr : ℚ → String) (cfg : MainConfig) (i : ℕ)
    (pipe sub : String) : MainJobFields :=
  let po := pathOutOf cfg i pipe sub
  let r := resolveResources cfg.threads cfg.memory_gb
  { job_name := cfg.run_id ++ "_" ++ pipeId cfg.use_preconfigs i pipe ++ "_" ++ sub
    stdout_file := po ++ "/out.log"
    cpac_bin_opt := match cfg.patch_cpac with
      | some c => bashTemplateJobCpacBin c
      | none => ""
    wd := po
    subject := sub
    pipeline := pipelineOptStr cfg.use_preconfigs pipe
    path_input := cfg.path_input
    path_output := po ++ "/output"
    image := cfg.path_image
    duration_str := timedelta_to_hms cfg.duration_s
    threads := toString r.job_threads
    memory_mb := fstr (bridges_gb_to_mb r.job_memory_gb)
    cpac_threads := toString r.cpac_threads
    cpac_memory_gb := fstr r.cpac_memory_gb
    extra_cpac_args := strJoin " " (mainExtraArgs cfg po)
    analysis_level := cfg.analysis_level }

/-- The plan entries appended for one job (`main.py` lines 444-447):
the executable job script, the `output/` directory, and the `wd/` directory
when the working directory is kept. -/
def jobEntriesFor (fstr : ℚ → String) (cfg : MainConfig) (i : ℕ)
    (pipe sub : String) : List FsPlan :=
  [{ path := pathOutOf cfg i pipe sub ++ "/run_job.sh", is_file := true,
     contents_text := some (bashTemplateJob (mainJobFields fstr cfg i pipe sub)),
     make_executable := true },
   { path := pathOutOf cfg i pipe sub ++ "/output", is_file := false,
     contents_text := none, make_executable := false }] ++
    (if cfg.save_working_dir then
      [{ path := pathOutOf cfg i pipe sub ++ "/wd", is_file := false,
         contents_text := none, make_executable := false }]
     else [])

/-- The expanded jobs of one invocation. -/
def mainJobs (cfg : MainConfig) : List (ℕ × String × String) :=
  expandIdx cfg.pipeline_ids cfg.subjects

/-- `job_paths` (`main.py` lines 353, 362, 449), in expansion order. -/
def jobPaths (cfg : MainConfig) : List String :=
  (mainJobs cfg).map (fun x => pathOutOf cfg x.1 x.2.1 x.2.2 ++ "/run_job.sh")

/-- The aggregate submission script text
(`main.py` lines 457-458): `f"#!/usr/bin/bash\n{sbatches}"` with one
`sbatch <job_script_path>` per line. -/
def executorContents (cfg : MainConfig) : String :=
  "#!/usr/bin/bash\n" ++ strJoin "\n" ((jobPaths cfg).map (fun j => "sbatch " ++ j))

/-- The executor plan entry (`main.py` lines 459-468). -/
def executorEntry (cfg : MainConfig) : FsPlan :=
  { path := cfg.path_output ++ "/" ++ cfg.run_id ++ "/run.sh", is_file := true,
    contents_text := some (executorContents cfg), make_executable := true }

/-- `reargs`, the reconstructed ecpac call (`main.py` lines 331-348). -/
def reargs (fstr : ℚ → String) (cfg : MainConfig) : List String :=
  ["ecpac", "--input", cfg.path_input, "--output", cfg.path_output,
   "--image", cfg.path_image, "--subject", strJoin " " cfg.subjects,
   "--pipeline", strJoin " " cfg.pipeline_ids,
   "--analysis_level", cfg.analysis_level] ++
    (match cfg.patch_cpac with | some c => ["--cpac", c] | none => []) ++
    ["--memory_gb", fstr cfg.memory_gb, "--threads", toString cfg.threads,
     "--duration_h", fstr (cfg.duration_s / 3600)] ++
    (if cfg.save_working_dir then ["--save_working_dir"] else []) ++
    (if cfg.extra_cpac_args = "" then [] else
      ["--extra_cpac_args", cfg.extra_cpac_args])

/-- The reproducible-invocation plan entry (`main.py` lines 470-478),
appended AFTER the executor entry. -/
def ecpacEntry (fstr : ℚ → String) (cfg : MainConfig) : FsPlan :=
  { path := cfg.path_output ++ "/" ++ cfg.run_id ++ "/ecpac_call.sh",
    is_file := true, contents_text := some (shlexJoin (reargs fstr cfg)),
    make_executable := true }

/-- All per-job plan entries, in expansion order (`main.py` lines 352-449). -/
def mainJobEntries (fstr : ℚ → String) (cfg : MainConfig) : List FsPlan :=
  (mainJobs cfg).flatMap (fun x => jobEntriesFor fstr cfg x.1 x.2.1 x.2.2)

/-- The accumulated plan, in the order the entries are appended
(`main.py` lines 352-478): per-job entries, then the executor, then the
reproducible-call script. -/
def mainPlan (fstr : ℚ → String) (cfg : MainConfig) : List FsPlan :=
  mainJobEntries fstr cfg ++ [executorEntry cfg, ecpacEntry fstr cfg]

/-- The plan as it is displayed (`main.py` lines 486-490) and applied
(lines 498-499): sorted by absolute path immediately before both loops
(line 484). -/
def finalPlan (fstr : ℚ → String) (cfg : MainConfig) : List FsPlan :=
  sortPlans (mainPlan fstr cfg)

/-! ## Pipeline-token validation (`main.py` lines 268-294) -/

/-- The classification loop (`main.py` lines 268-277): split the tokens
into preconfig names and config-file paths, aborting (`return`) at the
first config-file token that does not exist on disk (`ex` is
`Path(pipe).exists()`). -/
def classifyLoop : List String → (String → Bool) → Option (List String × List String)
  | [], _ => some ([], [])
  | p :: rest, ex =>
    if p ∈ CPAC_PRECONFIGS then
      (classifyLoop rest ex).map (fun pr => (p :: pr.1, pr.2))
    else if ex p then
      (classifyLoop rest ex).map (fun pr => (pr.1, p :: pr.2))
    else none

/-- Lines 268-288: classify, then reject a mix of preconfigs and config
files.  Returns `use_preconfigs` on success, `none` on any abort. -/
def pipelineValidation (tokens : List String) (ex : String → Bool) : Option Bool :=
  match classifyLoop tokens ex with
  | none => none
  | some pr => if pr.1 ≠ [] ∧ pr.2 ≠ [] then none else some (pr.1 ≠ [])

/-- The run from pipeline validation onward: `none` models the early
`return` (nothing is ever planned or written), `some` carries the final
plan.  The absolutisation of config-file tokens (`main.py` line 291) is the
identity on the model, where paths are already absolute. -/
def mainRun (fstr : ℚ → String) (cfg : MainConfig) (ex : String → Bool) :
    Option (List FsPlan) :=
  (pipelineValidation cfg.pipeline_ids ex).map
    (fun usePre => finalPlan fstr { cfg with use_preconfigs := usePre })

/-- What reaches the disk: an aborted run leaves the file system untouched;
a completed, confirmed run applies the final plan in order. -/
def mainApply (r : Option (List FsPlan)) (fs : Fs) : Fs :=
  match r with
  | none => fs
  | some plan => applyAll plan fs

/-! ## Concrete example inputs used by witnesses and counterexamples -/

/-- The raw trailing suffix `cpac_call_str` receives after the shlex-joined
call (`bash_builder.py` lines 109-110). -/
def extraSuffix (a : JobTemplateArgs) : String :=
  match a.extra_cpac_args with
  | some e => if e = "" then "" else " " ++ e
  | none => ""

/-- A small concrete validated configuration: one preset pipeline, one
subject. -/
def exCfg : MainConfig :=
  { run_id := "r", path_input := "/i", path_output := "/o",
    path_image := "/img.sif", subjects := ["s1"], pipeline_ids := ["default"],
    use_preconfigs := true, analysis_level := "participant",
    patch_cpac := none, memory_gb := 16, threads := 8, duration_s := 172800,
    save_working_dir := false, extra_cpac_args := "" }

/-- `exCfg` with a pipeline list mixing the preset `default` and a
config-file path. -/
def exCfgMixed : MainConfig :=
  { exCfg with pipeline_ids := ["default", "/p.yml"] }

/-- Concrete template fields for a job whose subject identifier contains a
space (all other fields as `main.py` would produce them for `exCfg`). -/
def c3Fields : MainJobFields :=
  { job_name := "r_default_a b", stdout_file := "/o/r/default/a b/out.log",
    cpac_bin_opt := "", wd := "/o/r/default/a b", subject := "a b",
    pipeline := "--preconfig default", path_input := "/i",
    path_output := "/o/r/default/a b/output", image := "/img.sif",
    duration_str := "48:00:00", threads := "8", memory_mb := "16000.0",
    cpac_threads := "7", cpac_memory_gb := "15.0", extra_cpac_args := "",
    analysis_level := "participant" }

/-- Concrete `bash_builder.job_template` arguments with a space in the
input path and in the subject. -/
def exArgs : JobTemplateArgs :=
  { job_name := "r_default_a b", job_stdout_file := "/o/r/default/a b/out.log",
    job_duration_limit := 172800, job_threads := 8, job_memory_gb := 16,
    wd := "/o/r/default/a b", path_input := "/data/my in put",
    path_output := "/o/r/default/a b/output", cpac_threads := 7,
    cpac_memory_gb := 15, path_image := "/img.sif",
    analysis_level := "participant", subject := "a b",
    pipeline := "default", pipeline_is_preconfig := true,
    cpac_sources := none, extra_cpac_args := none,
    before_run := [], after_run := [] }

/-- The empty file-system state. -/
def fsEmpty : Fs := { dirs := [], files := [], execs := [] }

/-! ## Helper lemmas -/

/-- Rounding an integer value is the identity. -/
theorem roundHalfEven_natCast (k : ℕ) : roundHalfEven ((k : ℕ) : ℚ) = (k : ℤ) := by
  unfold roundHalfEven
  rw [show (((k : ℕ) : ℚ)) = (((k : ℤ) : ℚ)) by push_cast; ring]
  rw [Int.floor_intCast]
  norm_num

/-- The floor of a quotient of natural casts is the natural division. -/
theorem floor_natCast_div (n m : ℕ) : ⌊((n : ℚ)) / ((m : ℚ))⌋ = ((n / m : ℕ) : ℤ) := by
  rw [show ((n : ℚ)) = (((n : ℤ)) : ℚ) by push_cast; ring]
  rw [Rat.floor_intCast_div_natCast]
  exact_mod_cast (Int.ofNat_ediv n m).symm

/-- Rational floor division of natural casts is natural division. -/
theorem qfdiv_natCast (n m : ℕ) : qfdiv (n : ℚ) (m : ℚ) = ((n / m : ℕ) : ℚ) := by
  unfold qfdiv
  rw [floor_natCast_div]
  exact_mod_cast rfl

/-- Rational modulus of natural casts is the natural modulus. -/
theorem qmod_natCast (n m : ℕ) : qmod (n : ℚ) (m : ℚ) = ((n % m : ℕ) : ℚ) := by
  unfold qmod
  rw [floor_natCast_div]
  have hq : ((m : ℚ)) * ((n / m : ℕ) : ℚ) + ((n % m : ℕ) : ℚ) = ((n : ℚ)) := by
    exact_mod_cast congrArg (fun z : ℕ => (z : ℚ)) (Nat.div_add_mod n m)
  have hcast : ((((n / m : ℕ) : ℤ)) : ℚ) = (((n / m : ℕ)) : ℚ) := by
    exact_mod_cast rfl
  rw [hcast]
  linarith

/-! ## C1 -/

/-- C1: for positive requested threads and memory, the resource policy is
memory-bound exactly when `memory_gb > 2*threads`; then the job thread count
is `max(ceil(memory_gb/2), 2)` and the warning is signalled; otherwise the
job thread count is the request unchanged (and no warning is emitted). -/
theorem c1_resource_adjustment (t : ℤ) (m : ℚ) (ht : 0 < t) (hm : 0 < m) :
    (2 * (t : ℚ) < m →
      (resolveResources t m).job_threads = max ⌈m / 2⌉ 2 ∧
      (resolveResources t m).warn = true) ∧
    (¬ 2 * (t : ℚ) < m →
      (resolveResources t m).job_threads = t ∧
      (resolveResources t m).warn = false) := by
  constructor <;> intro h <;> simp [resolveResources, h]

/-- Witness for C1 at `threads = 4`, `memory_gb = 20` (the memory-bound
example of the spec). -/
theorem c1_witness :
    (2 * ((4 : ℤ) : ℚ) < 20 →
      (resolveResources 4 20).job_threads = max ⌈(20 : ℚ) / 2⌉ 2 ∧
      (resolveResources 4 20).warn = true) ∧
    (¬ 2 * ((4 : ℤ) : ℚ) < 20 →
      (resolveResources 4 20).job_threads = 4 ∧
      (resolveResources 4 20).warn = false) :=
  c1_resource_adjustment 4 20 (by decide) (by decide)

/-! ## C2 -/

/-- C2: in both policy branches the container thread count is
`max(threads - 1, 1)` computed from the original request, container memory is
`max(memory_gb - 1, 1)`, job memory is the request unchanged, and both
container resources are at least 1. -/
theorem c2_container_resources (t : ℤ) (m : ℚ) (ht : 0 < t) (hm : 0 < m) :
    (resolveResources t m).cpac_threads = max (t - 1) 1 ∧
    (resolveResources t m).cpac_memory_gb = max (m - 1) 1 ∧
    (resolveResources t m).job_memory_gb = m ∧
    1 ≤ (resolveResources t m).cpac_threads ∧
    1 ≤ (resolveResources t m).cpac_memory_gb := by
  unfold resolveResources
  split <;> exact ⟨rfl, rfl, rfl, le_max_right _ _, le_max_right _ _⟩

/-- Witness for C2 at `threads = 8`, `memory_gb = 16` (the thread-bound
example of the spec). -/
theorem c2_witness :
    (resolveResources 8 16).cpac_threads = max (8 - 1) 1 ∧
    (resolveResources 8 16).cpac_memory_gb = max ((16 : ℚ) - 1) 1 ∧
    (resolveResources 8 16).job_memory_gb = 16 ∧
    1 ≤ (resolveResources 8 16).cpac_threads ∧
    1 ≤ (resolveResources 8 16).cpac_memory_gb :=
  c2_container_resources 8 16 (by decide) (by decide)

/-! ## C7 -/

/-- C7 counterexample: at `memory_gb = 2.0005` the value rendered after
`#SBATCH --mem` is `2.0005 * 1000 = 2000.5`, which is not an integer and in
particular differs from `round(job_memory_gb * 1000)`: the source applies no
rounding. -/
theorem c7_counterexample :
    bridges_gb_to_mb (resolveResources 4 (4001 / 2000)).job_memory_gb = 4001 / 2 ∧
    ((round (4001 / 2 : ℚ) : ℤ) : ℚ) ≠ (4001 / 2 : ℚ) := by
  constructor
  · unfold resolveResources bridges_gb_to_mb
    split <;> norm_num
  · rw [round_eq]
    norm_num

/-- C7 amended: the value rendered after `#SBATCH --mem` is exactly
`job_memory_gb * 1000` (1000 MB per GB), unrounded; it equals
`round(job_memory_gb * 1000)` only when that product is an integer. -/
theorem c7_mem_unrounded (fstr : ℚ → String) (cfg : MainConfig) (i : ℕ)
    (pipe sub : String) (ht : 0 < cfg.threads) (hm : 0 < cfg.memory_gb) :
    bridges_gb_to_mb (resolveResources cfg.threads cfg.memory_gb).job_memory_gb =
      cfg.memory_gb * 1000 ∧
    (mainJobFields fstr cfg i pipe sub).memory_mb = fstr (cfg.memory_gb * 1000) := by
  have h : (resolveResources cfg.threads cfg.memory_gb).job_memory_gb = cfg.memory_gb := by
    unfold resolveResources
    split <;> rfl
  refine ⟨by rw [h, bridges_gb_to_mb], ?_⟩
  show fstr (bridges_gb_to_mb (resolveResources cfg.threads cfg.memory_gb).job_memory_gb) = _
  rw [h, bridges_gb_to_mb]

/-- Witness for C7 amended at `exCfg` (8 threads, 16 GB). -/
theorem c7_witness :
    bridges_gb_to_mb (resolveResources exCfg.threads exCfg.memory_gb).job_memory_gb =
      exCfg.memory_gb * 1000 ∧
    (mainJobFields (fun _ => "m") exCfg 0 "default" "s1").memory_mb =
      (fun _ : ℚ => "m") (exCfg.memory_gb * 1000) :=
  c7_mem_unrounded (fun _ => "m") exCfg 0 "default" "s1" (by decide) (by decide)

/-! ## C9 -/

/-- C9 counterexample: a duration of 59.6 seconds renders as `"00:00:60"` —
the seconds field is rounded to nearest by the `:02.0f` float format and
leaves the 00-59 range. -/
theorem c9_counterexample : timedelta_to_hms (298 / 5) = "00:00:60" := by
  have h1 : qfdiv (298 / 5 : ℚ) 3600 = 0 := by norm_num [qfdiv]
  have h2 : qmod (298 / 5 : ℚ) 3600 = 298 / 5 := by norm_num [qmod]
  have h3 : qfdiv (298 / 5 : ℚ) 60 = 0 := by norm_num [qfdiv]
  have h4 : qmod (298 / 5 : ℚ) 60 = 298 / 5 := by norm_num [qmod]
  have h5 : roundHalfEven (0 : ℚ) = 0 := by norm_num [roundHalfEven]
  have h6 : roundHalfEven (298 / 5 : ℚ) = 60 := by norm_num [roundHalfEven]
  rw [timedelta_to_hms, h1, h2, h3, h4]
  simp only [pyFmt02f, h5, h6]
  decide

/-- C9 amended: for whole-second durations the rendered wall-clock limit is
`HH:MM:SS` with all three fields zero-padded to (at least) two digits and
the minutes and seconds fields in 00-59.  (For fractional-second durations
the seconds field is rounded to nearest and can render as 60, as the
counterexample shows.) -/
theorem c9_hms_whole_seconds (n : ℕ) :
    timedelta_to_hms ((n : ℕ) : ℚ) =
      zfill2 ((n / 3600 : ℕ) : ℤ) ++ ":" ++ zfill2 ((n % 3600 / 60 : ℕ) : ℤ) ++
        ":" ++ zfill2 ((n % 60 : ℕ) : ℤ) ∧
    n % 3600 / 60 < 60 ∧ n % 60 < 60 := by
  refine ⟨?_, by omega, by omega⟩
  unfold timedelta_to_hms pyFmt02f
  rw [show ((3600 : ℚ)) = (((3600 : ℕ)) : ℚ) by norm_num,
    show ((60 : ℚ)) = (((60 : ℕ)) : ℚ) by norm_num]
  rw [qfdiv_natCast, qmod_natCast, qfdiv_natCast, qmod_natCast]
  rw [roundHalfEven_natCast, roundHalfEven_natCast, roundHalfEven_natCast]

/-! ## C10 -/

/-- C10: applying a directory plan entry only creates the directory and its
missing parents; the file map and the set of executable-bit changes are
untouched, whatever the `make_executable` flag says. -/
theorem c10_dir_apply (e : FsPlan) (fs : Fs) (h : e.is_file = false) :
    (FsPlan.applyFs e fs).files = fs.files ∧
    (FsPlan.applyFs e fs).execs = fs.execs ∧
    (FsPlan.applyFs e fs).dirs = mkdirP e.path fs.dirs := by
  simp [FsPlan.applyFs, h]

/-- Witness for C10: a directory entry with `make_executable = true` applied
to the empty file system. -/
theorem c10_witness :
    (FsPlan.applyFs ⟨"/a/b", false, none, true⟩ fsEmpty).files = fsEmpty.files ∧
    (FsPlan.applyFs ⟨"/a/b", false, none, true⟩ fsEmpty).execs = fsEmpty.execs ∧
    (FsPlan.applyFs ⟨"/a/b", false, none, true⟩ fsEmpty).dirs =
      mkdirP "/a/b" fsEmpty.dirs :=
  c10_dir_apply ⟨"/a/b", false, none, true⟩ fsEmpty rfl

/-! ## C6 -/

/-- Every token of a successful classification ends up in its class list
(preconfig names in the first, config-file tokens in the second). -/
theorem classifyLoop_mem (tokens : List String) (ex : String → Bool)
    (pr : List String × List String) (h : classifyLoop tokens ex = some pr) :
    ∀ x ∈ tokens, (x ∈ CPAC_PRECONFIGS → x ∈ pr.1) ∧ (x ∉ CPAC_PRECONFIGS → x ∈ pr.2) := by
  induction tokens generalizing pr with
  | nil => intro x hx; simp at hx
  | cons p rest ih =>
    intro x hx
    unfold classifyLoop at h
    by_cases hp : p ∈ CPAC_PRECONFIGS
    · rw [if_pos hp] at h
      obtain ⟨q, hq, rfl⟩ := Option.map_eq_some'.mp h
      rcases List.mem_cons.mp hx with rfl | hx'
      · exact ⟨fun _ => List.mem_cons_self _ _, fun hnp => absurd hp hnp⟩
      · rcases ih q hq x hx' with ⟨ha, hb⟩
        exact ⟨fun hh => List.mem_cons_of_mem _ (ha hh), hb⟩
    · rw [if_neg hp] at h
      by_cases hex : ex p
      · rw [if_pos hex] at h
        obtain ⟨q, hq, rfl⟩ := Option.map_eq_some'.mp h
        rcases List.mem_cons.mp hx with rfl | hx'
        · exact ⟨fun hh => absurd hh hp, fun _ => List.mem_cons_self _ _⟩
        · rcases ih q hq x hx' with ⟨ha, hb⟩
          exact ⟨ha, fun hh => List.mem_cons_of_mem _ (hb hh)⟩
      · rw [if_neg hex] at h
        exact absurd h (by simp)

/-- C6: when the pipeline list holds both a known preset name and a token
classified as a config-file path, the run aborts during validation — it
produces no plan and the file system is untouched. -/
theorem c6_mixed_rejected (fstr : ℚ → String) (cfg : MainConfig)
    (ex : String → Bool) (fs : Fs)
    (h1 : ∃ a ∈ cfg.pipeline_ids, a ∈ CPAC_PRECONFIGS)
    (h2 : ∃ b ∈ cfg.pipeline_ids, b ∉ CPAC_PRECONFIGS) :
    mainRun fstr cfg ex = none ∧ mainApply (mainRun fstr cfg ex) fs = fs := by
  have hv : pipelineValidation cfg.pipeline_ids ex = none := by
    cases hcl : classifyLoop cfg.pipeline_ids ex with
    | none => simp [pipelineValidation, hcl]
    | some pr =>
      obtain ⟨a, ha, hap⟩ := h1
      obtain ⟨b, hb, hbp⟩ := h2
      have hma := (classifyLoop_mem _ _ _ hcl a ha).1 hap
      have hmb := (classifyLoop_mem _ _ _ hcl b hb).2 hbp
      have hne1 : pr.1 ≠ [] := List.ne_nil_of_mem hma
      have hne2 : pr.2 ≠ [] := List.ne_nil_of_mem hmb
      simp [pipelineValidation, hcl, hne1, hne2]
  refine ⟨by simp [mainRun, hv], by simp [mainRun, hv, mainApply]⟩

/-- Witness for C6: the pipeline list `["default", "/p.yml"]` mixes the
preset `default` with a config-file path. -/
theorem c6_witness :
    mainRun (fun _ => "16.0") exCfgMixed (fun _ => true) = none ∧
    mainApply (mainRun (fun _ => "16.0") exCfgMixed (fun _ => true)) fsEmpty = fsEmpty :=
  c6_mixed_rejected (fun _ => "16.0") exCfgMixed (fun _ => true) fsEmpty
    (by decide) (by decide)

/-! ## C8 -/

/-- The expansion has one pair per element of the Cartesian product. -/
theorem expandPairs_length (pipes subs : List String) :
    (expandPairs pipes subs).length = pipes.length * subs.length := by
  induction pipes with
  | nil => simp [expandPairs]
  | cons p ps ih =>
    simp only [expandPairs, List.flatMap_cons, List.length_append,
      List.length_map, List.length_cons] at ih ⊢
    rw [ih]
    ring

/-- Pair number `k` of the expansion is pipeline `k / |subjects|` with
subject `k % |subjects|` — pipeline-major order. -/
theorem expandPairs_getElem (pipes subs : List String) (k : ℕ)
    (hk : k < pipes.length * subs.length) :
    ∃ p s, pipes[k / subs.length]? = some p ∧ subs[k % subs.length]? = some s ∧
      (expandPairs pipes subs)[k]? = some (p, s) := by
  induction pipes generalizing k with
  | nil => simp at hk
  | cons p ps ih =>
    by_cases hks : k < subs.length
    · have hdiv : k / subs.length = 0 := Nat.div_eq_of_lt hks
      have hmod : k % subs.length = k := Nat.mod_eq_of_lt hks
      obtain ⟨s, hs⟩ : ∃ s, subs[k]? = some s := by
        rw [List.getElem?_eq_getElem hks]; exact ⟨_, rfl⟩
      refine ⟨p, s, by rw [hdiv]; simp, by rw [hmod]; exact hs, ?_⟩
      show ((p :: ps).flatMap (fun q => subs.map (fun s => (q, s))))[k]? = _
      rw [List.flatMap_cons, List.getElem?_append_left (by simpa using hks),
        List.getElem?_map, hs]
      rfl
    · push_neg at hks
      have hpos : 0 < subs.length := by
        rcases Nat.eq_zero_or_pos subs.length with h0 | h0
        · rw [h0, Nat.mul_zero] at hk; omega
        · exact h0
      have htot : (p :: ps).length * subs.length =
          subs.length + ps.length * subs.length := by
        simp only [List.length_cons]
        ring
      have hk' : k - subs.length < ps.length * subs.length := by omega
      obtain ⟨p', s, h1, h2, h3⟩ := ih (k - subs.length) hk'
      have hkeq : k = subs.length + (k - subs.length) := by omega
      refine ⟨p', s, ?_, ?_, ?_⟩
      · rw [hkeq, Nat.add_div_left _ hpos]
        simpa using h1
      · rw [hkeq, Nat.add_mod_left]
        exact h2
      · show ((p :: ps).flatMap (fun q => subs.map (fun s => (q, s))))[k]? = _
        rw [List.flatMap_cons,
          List.getElem?_append_right (by simpa using hks)]
        simpa using h3

/-- C8: job expansion walks the Cartesian product in pipeline-major order —
entry `k` pairs pipeline `k / |subjects|` with subject `k % |subjects|` and
carries the sequential index `k`; with presets the segment is the preset
name itself, with config files it is the zero-padded index followed by the
file stem; the spec's four-job example expands exactly as stated. -/
theorem c8_expansion_order :
    (∀ (pipes subs : List String) (k : ℕ), k < pipes.length * subs.length →
      ∃ p s, pipes[k / subs.length]? = some p ∧ subs[k % subs.length]? = some s ∧
        (expandIdx pipes subs)[k]? = some (k, p, s)) ∧
    (∀ pipes subs : List String,
      (expandIdx pipes subs).length = pipes.length * subs.length) ∧
    expandIdx ["default", "abcd-options"] ["s1", "s2"] =
      [(0, "default", "s1"), (1, "default", "s2"),
       (2, "abcd-options", "s1"), (3, "abcd-options", "s2")] ∧
    (expandIdx ["default", "abcd-options"] ["s1", "s2"]).map
        (fun x => pipeId true x.1 x.2.1) =
      ["default", "default", "abcd-options", "abcd-options"] ∧
    pipeId false 2 "/x/conf.yml" = "002_conf" := by
  refine ⟨?_, ?_, by decide, by decide, by decide⟩
  · intro pipes subs k hk
    obtain ⟨p, s, h1, h2, h3⟩ := expandPairs_getElem pipes subs k hk
    refine ⟨p, s, h1, h2, ?_⟩
    unfold expandIdx
    rw [List.getElem?_enum, h3]
    rfl
  · intro pipes subs
    unfold expandIdx
    rw [List.enum_length, expandPairs_length]

/-- Witness for C8: the third expanded job (index 2) of the example pairs
the second pipeline with the first subject. -/
theorem c8_witness :
    ∃ p s,
      (["default", "abcd-options"] : List String)[2 / (["s1", "s2"] : List String).length]? = some p ∧
      (["s1", "s2"] : List String)[2 % (["s1", "s2"] : List String).length]? = some s ∧
      (expandIdx ["default", "abcd-options"] ["s1", "s2"])[2]? = some (2, p, s) :=
  c8_expansion_order.1 ["default", "abcd-options"] ["s1", "s2"] 2 (by decide)

/-! ## C4 -/

/-- Two key-sorted lists that are permutations of each other, on which equal
keys force equal entries, are identical. -/
theorem sorted_key_unique : ∀ (l₁ l₂ : List FsPlan), l₁.Perm l₂ →
    List.Pairwise (fun a b => planKey a ≤ planKey b) l₁ →
    List.Pairwise (fun a b => planKey a ≤ planKey b) l₂ →
    (∀ a ∈ l₁, ∀ b ∈ l₁, planKey a = planKey b → a = b) → l₁ = l₂ := by
  intro l₁
  induction l₁ with
  | nil => intro l₂ hp _ _ _; exact List.Perm.nil_eq hp
  | cons a t ih =>
    intro l₂ hp hs₁ hs₂ hdet
    cases l₂ with
    | nil => exact absurd (List.perm_nil.mp hp) (by simp)
    | cons b t₂ =>
      have hmem_a : a ∈ b :: t₂ := hp.mem_iff.mp (List.mem_cons_self a t)
      have hmem_b : b ∈ a :: t := hp.symm.mem_iff.mp (List.mem_cons_self b t₂)
      have h1 : planKey a ≤ planKey b := by
        rcases List.mem_cons.mp hmem_b with heq | hb
        · rw [heq]
        · exact (List.pairwise_cons.mp hs₁).1 b hb
      have h2 : planKey b ≤ planKey a := by
        rcases List.mem_cons.mp hmem_a with heq | ha2
        · rw [heq]
        · exact (List.pairwise_cons.mp hs₂).1 a ha2
      have hab : a = b := hdet a (List.mem_cons_self a t) b hmem_b (le_antisymm h1 h2)
      subst hab
      have hpt : t.Perm t₂ := hp.cons_inv
      have htail := ih t₂ hpt (List.pairwise_cons.mp hs₁).2 (List.pairwise_cons.mp hs₂).2
        (fun x hx y hy hxy =>
          hdet x (List.mem_cons_of_mem _ hx) y (List.mem_cons_of_mem _ hy) hxy)
      rw [htail]

/-- The sort is a permutation of its input. -/
theorem sortPlans_perm (l : List FsPlan) : (sortPlans l).Perm l :=
  List.mergeSort_perm l _

/-- The sort is sorted by the path key. -/
theorem sortPlans_sorted (l : List FsPlan) :
    List.Pairwise (fun a b => planKey a ≤ planKey b) (sortPlans l) := by
  have hs := @List.sorted_mergeSort FsPlan
    (fun a b : FsPlan => decide (planKey a ≤ planKey b))
    (fun a b c hab hbc => by
      simp only [decide_eq_true_eq] at hab hbc ⊢
      exact le_trans hab hbc)
    (fun a b => by
      simp only [Bool.or_eq_true, decide_eq_true_eq]
      exact le_total _ _)
    l
  exact hs.imp (fun h => by simpa using h)

/-- C4: the plan as displayed and applied (`finalPlan`) is the accumulated
plan sorted ascending by absolute path; it is a permutation of the
accumulated entries, it is key-sorted, and — as long as entries with equal
paths are equal — it does not depend on the order in which the entries were
accumulated. -/
theorem c4_plan_sorted (l l' : List FsPlan)
    (hperm : l.Perm l')
    (hdet : ∀ a ∈ l, ∀ b ∈ l, planKey a = planKey b → a = b) :
    (sortPlans l).Perm l ∧
    List.Pairwise (fun a b => planKey a ≤ planKey b) (sortPlans l) ∧
    sortPlans l' = sortPlans l ∧
    (∀ (fstr : ℚ → String) (cfg : MainConfig),
      finalPlan fstr cfg = sortPlans (mainPlan fstr cfg)) := by
  refine ⟨sortPlans_perm l, sortPlans_sorted l, ?_, fun _ _ => rfl⟩
  have hmem : ∀ x ∈ sortPlans l', x ∈ l := fun x hx =>
    hperm.mem_iff.mpr ((sortPlans_perm l').mem_iff.mp hx)
  exact sorted_key_unique (sortPlans l') (sortPlans l)
    (((sortPlans_perm l').trans hperm.symm).trans (sortPlans_perm l).symm)
    (sortPlans_sorted l') (sortPlans_sorted l)
    (fun x hx y hy hxy => hdet x (hmem x hx) y (hmem y hy) hxy)

/-- Witness for C4: two two-entry plans that accumulate the same entries in
opposite orders sort to the same displayed list. -/
theorem c4_witness :
    (sortPlans [⟨"/b", true, some "x", true⟩, ⟨"/a", false, none, false⟩]).Perm
      [⟨"/b", true, some "x", true⟩, ⟨"/a", false, none, false⟩] ∧
    List.Pairwise (fun a b => planKey a ≤ planKey b)
      (sortPlans [⟨"/b", true, some "x", true⟩, ⟨"/a", false, none, false⟩]) ∧
    sortPlans [⟨"/a", false, none, false⟩, ⟨"/b", true, some "x", true⟩] =
      sortPlans [⟨"/b", true, some "x", true⟩, ⟨"/a", false, none, false⟩] ∧
    (∀ (fstr : ℚ → String) (cfg : MainConfig),
      finalPlan fstr cfg = sortPlans (mainPlan fstr cfg)) :=
  c4_plan_sorted
    [⟨"/b", true, some "x", true⟩, ⟨"/a", false, none, false⟩]
    [⟨"/a", false, none, false⟩, ⟨"/b", true, some "x", true⟩]
    (by decide) (by decide)

/-! ## C5 -/

/-- Splitting a separator-free chunk yields that chunk alone. -/
theorem splitOnChar_not_mem (sep : Char) (cs : List Char) (h : sep ∉ cs) :
    splitOnChar sep cs = [cs] := by
  induction cs with
  | nil => rfl
  | cons c t ih =>
    have hcs : ¬ c = sep := fun e => h (e ▸ List.mem_cons_self c t)
    unfold splitOnChar
    rw [if_neg hcs, ih (fun ht => h (List.mem_cons_of_mem _ ht))]

/-- Splitting strips the first separator after a separator-free prefix. -/
theorem splitOnChar_append_sep (sep : Char) (a b : List Char) (h : sep ∉ a) :
    splitOnChar sep (a ++ sep :: b) = a :: splitOnChar sep b := by
  induction a with
  | nil =>
    show splitOnChar sep (sep :: b) = [] :: splitOnChar sep b
    rw [splitOnChar]
    rw [if_pos rfl]
  | cons c t ih =>
    have hc : ¬ c = sep := fun e => h (e ▸ List.mem_cons_self c t)
    show splitOnChar sep (c :: (t ++ sep :: b)) = (c :: t) :: splitOnChar sep b
    rw [splitOnChar]
    rw [if_neg hc, ih (fun ht => h (List.mem_cons_of_mem _ ht))]

/-- Splitting a newline-join of newline-free parts recovers the parts. -/
theorem splitOnChar_strJoin (l : List String) (hl : l ≠ [])
    (h : ∀ p ∈ l, nlChar ∉ p.toList) :
    splitOnChar nlChar (strJoin "\n" l).toList = l.map String.toList := by
  induction l with
  | nil => exact absurd rfl hl
  | cons x t ih =>
    cases t with
    | nil =>
      show splitOnChar nlChar (strJoin "\n" [x]).toList = [x.toList]
      exact splitOnChar_not_mem _ _ (h x (List.mem_cons_self x []))
    | cons y tt =>
      show splitOnChar nlChar ((x ++ "\n" ++ strJoin "\n" (y :: tt)).toList) =
        x.toList :: (y :: tt).map String.toList
      have hx : nlChar ∉ x.toList := h x (List.mem_cons_self x _)
      have htl : (x ++ "\n" ++ strJoin "\n" (y :: tt)).toList =
          x.toList ++ nlChar :: (strJoin "\n" (y :: tt)).toList := by
        show (x ++ "\n" ++ strJoin "\n" (y :: tt)).data =
          x.data ++ nlChar :: (strJoin "\n" (y :: tt)).data
        rw [String.data_append, String.data_append,
          show ("\n" : String).data = [nlChar] by decide, List.append_assoc]
        rfl
      rw [htl, splitOnChar_append_sep nlChar _ _ hx,
        ih (by simp) (fun p hp => h p (List.mem_cons_of_mem _ hp))]

/-- C5 amended: the aggregate submission script's lines are exactly the
interpreter line followed by one `sbatch <job_script_path>` line per job in
expansion order; the entry is executable and sits in the accumulated plan
immediately after every per-job entry — but it is the second-to-last entry,
because the reproducible-call script `ecpac_call.sh` is appended after it. -/
theorem c5_executor (fstr : ℚ → String) (cfg : MainConfig)
    (hne : jobPaths cfg ≠ [])
    (hnl : ∀ p ∈ jobPaths cfg, nlChar ∉ p.toList) :
    splitOnChar nlChar (executorContents cfg).toList =
      "#!/usr/bin/bash".toList ::
        (jobPaths cfg).map (fun j => ("sbatch " ++ j).toList) ∧
    (executorEntry cfg).make_executable = true ∧
    (mainPlan fstr cfg)[(mainJobEntries fstr cfg).length]? = some (executorEntry cfg) ∧
    (mainPlan fstr cfg).length = (mainJobEntries fstr cfg).length + 2 ∧
    (mainPlan fstr cfg).getLast? = some (ecpacEntry fstr cfg) := by
  refine ⟨?_, rfl, ?_, ?_, ?_⟩
  · have hmap_ne : (jobPaths cfg).map (fun j => "sbatch " ++ j) ≠ [] := by
      simpa using hne
    have hmap_nl : ∀ p ∈ (jobPaths cfg).map (fun j => "sbatch " ++ j),
        nlChar ∉ p.toList := by
      intro p hp
      obtain ⟨j, hj, rfl⟩ := List.mem_map.mp hp
      have hjl : ("sbatch " ++ j).toList = "sbatch ".toList ++ j.toList :=
        String.data_append _ _
      rw [hjl]
      intro hmem
      rcases List.mem_append.mp hmem with hh | hh
      · exact absurd hh (by decide)
      · exact hnl j hj hh
    have htl : (executorContents cfg).toList =
        "#!/usr/bin/bash".toList ++ nlChar ::
          (strJoin "\n" ((jobPaths cfg).map (fun j => "sbatch " ++ j))).toList := by
      show ("#!/usr/bin/bash\n" ++
        strJoin "\n" ((jobPaths cfg).map (fun j => "sbatch " ++ j))).data = _
      rw [String.data_append,
        show ("#!/usr/bin/bash\n" : String).data =
          ("#!/usr/bin/bash" : String).data ++ [nlChar] by decide,
        List.append_assoc]
      rfl
    rw [htl, splitOnChar_append_sep nlChar _ _ (by decide),
      splitOnChar_strJoin _ hmap_ne hmap_nl, List.map_map]
    rfl
  · show (mainJobEntries fstr cfg ++ [executorEntry cfg, ecpacEntry fstr cfg])[(mainJobEntries fstr cfg).length]? = _
    rw [List.getElem?_append_right (le_refl _)]
    simp
  · show (mainJobEntries fstr cfg ++ [executorEntry cfg, ecpacEntry fstr cfg]).length = _
    simp
  · show (mainJobEntries fstr cfg ++ [executorEntry cfg, ecpacEntry fstr cfg]).getLast? = _
    simp

/-- C5 counterexample: for the one-job configuration `exCfg` the LAST entry
added to the plan is the reproducible-call script `ecpac_call.sh`, not the
aggregate submission script `run.sh` — the executor entry is only
second-to-last. -/
theorem c5_counterexample :
    ((mainPlan (fun _ => "16.0") exCfg).getLast?.map FsPlan.path) =
      some "/o/r/ecpac_call.sh" ∧
    (executorEntry exCfg).path = "/o/r/run.sh" ∧
    ("/o/r/ecpac_call.sh" : String) ≠ "/o/r/run.sh" := by
  refine ⟨?_, rfl, by decide⟩
  show ((mainJobEntries (fun _ => "16.0") exCfg ++
    [executorEntry exCfg, ecpacEntry (fun _ => "16.0") exCfg]).getLast?.map FsPlan.path) = _
  rw [List.getLast?_append]
  rfl

/-- Witness for C5 amended at `exCfg` (a single job). -/
theorem c5_witness :
    splitOnChar nlChar (executorContents exCfg).toList =
      "#!/usr/bin/bash".toList ::
        (jobPaths exCfg).map (fun j => ("sbatch " ++ j).toList) ∧
    (executorEntry exCfg).make_executable = true ∧
    (mainPlan (fun _ => "16.0") exCfg)[(mainJobEntries (fun _ => "16.0") exCfg).length]? =
      some (executorEntry exCfg) ∧
    (mainPlan (fun _ => "16.0") exCfg).length =
      (mainJobEntries (fun _ => "16.0") exCfg).length + 2 ∧
    (mainPlan (fun _ => "16.0") exCfg).getLast? = some (ecpacEntry (fun _ => "16.0") exCfg) :=
  c5_executor (fun _ => "16.0") exCfg (by decide) (by decide)

/-! ## C3 -/

/-- Safe characters are not the single quote. -/
theorem safeChar_ne_q {c : Char} (h : safeChar c = true) : ¬ c = qChar := by
  intro e
  rw [e] at h
  exact absurd h (by decide)

/-- Safe characters are not the double quote. -/
theorem safeChar_ne_dq {c : Char} (h : safeChar c = true) : ¬ c = dqChar := by
  intro e
  rw [e] at h
  exact absurd h (by decide)

/-- Reading a fully safe (hence unquoted) word returns it unchanged. -/
theorem parseW_safe (s : List Char) (h : s.all safeChar = true) :
    parseW PMode.norm s = s := by
  induction s with
  | nil => rfl
  | cons c t ih =>
    rw [List.all_cons, Bool.and_eq_true] at h
    rw [parseW]
    rw [if_neg (safeChar_ne_q h.1), if_neg (safeChar_ne_dq h.1), ih h.2]

/-- Reading the single-quoted, escape-replaced body of `shlex.quote` up to
its closing quote recovers the original text; reading continues after the
closing quote in normal mode. -/
theorem parseW_sq_esc (a rest : List Char) :
    parseW PMode.sq (escQuoteL a ++ qChar :: rest) = a ++ parseW PMode.norm rest := by
  induction a with
  | nil =>
    show parseW PMode.sq (qChar :: rest) = parseW PMode.norm rest
    rw [parseW, if_pos rfl]
  | cons c t ih =>
    by_cases hc : c = qChar
    · subst hc
      show parseW PMode.sq
        ((qChar :: dqChar :: qChar :: dqChar :: qChar :: escQuoteL t) ++ qChar :: rest) =
        (qChar :: t) ++ parseW PMode.norm rest
      have hqd : ¬ dqChar = qChar := by decide
      have hdq : ¬ qChar = dqChar := by decide
      rw [List.cons_append, parseW, if_pos rfl]
      rw [List.cons_append, parseW, if_neg hqd, if_pos rfl]
      rw [List.cons_append, parseW, if_neg hdq]
      rw [List.cons_append, parseW, if_pos rfl]
      rw [List.cons_append, parseW, if_pos rfl]
      rw [ih]
      rfl
    · rw [show escQuoteL (c :: t) = c :: escQuoteL t from by rw [escQuoteL, if_neg hc]]
      rw [List.cons_append, parseW, if_neg hc, ih]
      rfl

/-- Round trip: a shell read of `shlex.quote s` yields exactly `s`, for
every string (spaces, quotes and metacharacters included). -/
theorem parseWord_shlexQuote (s : String) : parseWord (shlexQuote s) = s := by
  show String.mk (parseW PMode.norm (shlexQuoteL s.toList)) = s
  rw [shlexQuoteL]
  by_cases h0 : s.toList = []
  · rw [if_pos h0]
    show String.mk (parseW PMode.norm [qChar, qChar]) = s
    have : parseW PMode.norm [qChar, qChar] = [] := by decide
    rw [this]
    show String.mk [] = s
    cases s with
    | mk data =>
      simp only [String.toList] at h0
      rw [h0]
  · rw [if_neg h0]
    by_cases hsafe : (s.toList).all safeChar
    · rw [if_pos hsafe, parseW_safe _ hsafe]
      rfl
    · rw [if_neg hsafe]
      show String.mk (parseW PMode.norm (qChar :: (escQuoteL s.toList ++ [qChar]))) = s
      rw [parseW, if_pos rfl]
      rw [show escQuoteL s.toList ++ [qChar] = escQuoteL s.toList ++ qChar :: [] from rfl]
      rw [parseW_sq_esc]
      show String.mk (s.toList ++ []) = s
      rw [List.append_nil]
      rfl

/-- C3 amended: in `bash_builder.job_template` the container invocation is
built as an argument list and `shlex.join`-ed into the emitted line (with
only the deliberately raw extra-arguments suffix appended), and shell
quoting is correct: reading any quoted argument back yields the original
value, so paths and subject names with spaces or metacharacters stay single
arguments.  (The `main.py` renderer does NOT have this property — see the
counterexample.) -/
theorem c3_shlex_quoting (fstr : ℚ → String) (a : JobTemplateArgs) :
    cpacCallStr fstr a = shlexJoin (cpacCall fstr a) ++ extraSuffix a ∧
    cpacCallStr fstr a ∈ jobTemplateLines fstr a ∧
    ∀ w ∈ cpacCall fstr a, parseWord (shlexQuote w) = w := by
  refine ⟨?_, ?_, fun w _ => parseWord_shlexQuote w⟩
  · rw [cpacCallStr, extraSuffix]
    cases a.extra_cpac_args with
    | none => simp
    | some e =>
      by_cases he : e = "" <;> simp [he, String.append_assoc]
  · rw [jobTemplateLines]
    exact List.mem_append_left _ (List.mem_append_left _
      (List.mem_append_right _ (List.mem_cons_self _ _)))

/-- Witness for C3 amended: the input path of `exArgs` contains spaces and
survives the quote/read round trip as one argument. -/
theorem c3_witness :
    parseWord (shlexQuote "/data/my in put") = "/data/my in put" :=
  (c3_shlex_quoting (fun _ => "15.0") exArgs).2.2 "/data/my in put" (by decide)

/-- C3 counterexample: the script renderer actually used by the program
(`main.py`, `consts.BASH_TEMPLATE_JOB.format`) interpolates the fields raw;
for the subject `"a b"` the shell splits the rendered singularity line so
that no single argument `"a b"` exists — the subject arrives as the two
separate words `"a"` and `"b"`. -/
theorem c3_counterexample :
    "a" ∈ shellWords (mainSingularityLine c3Fields) ∧
    "b" ∈ shellWords (mainSingularityLine c3Fields) ∧
    ¬ "a b" ∈ shellWords (mainSingularityLine c3Fields) ∧
    c3Fields.subject = "a b" := by
  refine ⟨by decide, by decide, by decide, rfl⟩
